import Mathlib

/-!
Verification development for the clippy-go terminal assistant.

The Go source is shallowly embedded: Go structs become Lean structures,
`map[string]interface{}` argument payloads become association lists over a
`GoValue` type, fallible calls return `Except String`, and the stateful
agent loop (`Agent.GetResponse` in internal/agent/agent.go) becomes a pure
function threading the history explicitly, with a fuel parameter equal to
the source's hard iteration cap of 50.  Filesystem-touching tools thread an
explicit association-list filesystem; the shell tool takes a shell oracle.
-/

namespace Clippy

/-- A dynamically-typed JSON-ish value, embedding the Go `interface{}`
payloads that tool arguments carry (`map[string]interface{}`).  JSON numbers
are modelled as integers; no claim depends on fractional values. -/
inductive GoValue where
  | str : String → GoValue
  | num : Int → GoValue
  | bool : Bool → GoValue
  | null : GoValue
  deriving DecidableEq, Repr

/-- Embeds Go `map[string]interface{}` as an association list in canonical
(key-ordered-by-construction) form; `reflect.DeepEqual` on such maps is
embedded as list equality of canonical forms. -/
def Args := List (String × GoValue)
  deriving DecidableEq, Repr

/-- Embeds the Go idiom `args[key].(string)`: map lookup followed by a
string type assertion; `none` covers both a missing key and a non-string
value. -/
def getStr (args : Args) (key : String) : Option String :=
  match List.lookup key args with
  | some (GoValue.str s) => some s
  | _ => none

/-- Usage represents token usage statistics (internal/llm/llm.go). -/
structure Usage where
  PromptTokens : Int
  CompletionTokens : Int
  TotalTokens : Int
  deriving DecidableEq, Repr

/-- ToolCall represents a request from the LLM to execute a tool
(internal/llm/llm.go). -/
structure ToolCall where
  ID : String
  Name : String
  Arguments : Args
  deriving DecidableEq, Repr

/-- Message represents a chat message (internal/llm/llm.go).  Absent
`tool_calls` is the empty list, absent `tool_call_id` the empty string,
and the optional usage pointer an `Option`. -/
structure Message where
  Role : String
  Content : String
  ToolCalls : List ToolCall := []
  ToolCallID : String := ""
  Usage : Option Usage := none
  deriving DecidableEq, Repr

/-- ToolDefinition describes a tool to the LLM (internal/tools/tools.go).
The JSON-Schema `Parameters` payload is omitted: the agent loop reads only
the name. -/
structure ToolDefinition where
  Name : String
  Description : String := ""
  deriving DecidableEq, Repr

/-- Tool embeds the Go `Tool` interface as a record of its two methods.
`Execute` here is the pure view used by the agent loop: the world-state of
the concrete filesystem tools is abstracted into the result text. -/
structure Tool where
  Definition : ToolDefinition
  Execute : Args → Except String String

/-- Provider embeds the `llm.Provider` interface's `Generate` method: a
function of the full history and the tool registry, returning either an
assistant message or a failure description. -/
def Provider := List Message → List Tool → Except String Message

/-- Response represents the agent's full response including usage stats
(internal/agent/agent.go).  Go's nil `*Usage` and nil slice are the
defaults. -/
structure Response where
  Content : String
  Usage : Option Usage := none
  ToolsUsed : List String := []
  deriving DecidableEq, Repr

/-- Agent represents the Clippy assistant (internal/agent/agent.go). -/
structure Agent where
  Name : String
  LLM : Option Provider
  Tools : List Tool
  History : List Message

/-! ### Substring machinery for the edit tool

`leadsWith pat s` embeds "pat is a prefix of s"; `containsSub` embeds Go's
`strings.Contains`, and `replaceFirst` embeds `strings.Replace(s, old, new, 1)`
(replace the leftmost occurrence only), all over `List Char`. -/

/-- `leadsWith pat s = true` iff `pat` occurs at the very start of `s`. -/
def leadsWith : List Char → List Char → Bool
  | [], _ => true
  | _ :: _, [] => false
  | p :: ps, c :: cs => p = c && leadsWith ps cs

/-- Embeds `strings.Contains s pat` by scanning every suffix. -/
def containsSub : List Char → List Char → Bool
  | [], pat => pat.isEmpty
  | c :: rest, pat => leadsWith pat (c :: rest) || containsSub rest pat

/-- Embeds `strings.Replace(s, pat, rep, 1)`: replace the leftmost
occurrence of `pat` in `s` by `rep`; `s` is returned unchanged when `pat`
does not occur. -/
def replaceFirst : List Char → List Char → List Char → List Char
  | [], pat, rep => if leadsWith pat [] then rep else []
  | c :: rest, pat, rep =>
    if leadsWith pat (c :: rest) then rep ++ (c :: rest).drop pat.length
    else c :: replaceFirst rest pat rep

/-- `strings.Contains` on `String`. -/
def goContains (s pat : String) : Bool := containsSub s.data pat.data

/-- `strings.Replace(s, old, new, 1)` on `String`. -/
def goReplaceFirst (s pat rep : String) : String :=
  ⟨replaceFirst s.data pat.data rep.data⟩

/-! ### Filesystem model for the file tools -/

/-- The filesystem visible to the file tools: a path-to-contents map in
association-list form. -/
def FS := List (String × String)
  deriving DecidableEq, Repr

/-- `os.ReadFile`: look the path up. -/
def fsRead (fs : FS) (path : String) : Option String :=
  List.lookup path fs

/-- `os.WriteFile`: create or overwrite the file at `path`. -/
def fsWrite : FS → String → String → FS
  | [], p, c => [(p, c)]
  | (q, d) :: rest, p, c =>
    if q = p then (p, c) :: rest else (q, d) :: fsWrite rest p c

namespace EditFileTool

/-- EditFileTool.Execute (internal/tools/tools.go): validate the three
string arguments in source order, read the file, fail hard when the target
string is absent, otherwise replace its first occurrence and write the file
back.  The filesystem is threaded explicitly; every error path returns it
untouched because the source performs no write before the final step. -/
def Execute (args : Args) (fs : FS) : Except String String × FS :=
  match getStr args "path" with
  | none => (Except.error "missing or invalid 'path' argument", fs)
  | some path =>
    match getStr args "target" with
    | none => (Except.error "missing or invalid 'target' argument", fs)
    | some target =>
      match getStr args "replacement" with
      | none => (Except.error "missing or invalid 'replacement' argument", fs)
      | some replacement =>
        match fsRead fs path with
        | none => (Except.error "failed to read file: no such file", fs)
        | some text =>
          if goContains text target then
            (Except.ok ("Successfully edited " ++ path),
             fsWrite fs path (goReplaceFirst text target replacement))
          else
            (Except.error "target string not found in file", fs)

end EditFileTool

/-- A shell oracle: the behaviour of `exec.Command("sh", "-c", cmd)` —
the combined output, and `some desc` when the process exited with failure
(`desc` being the error's rendering, e.g. "exit status 1"). -/
def Shell := String → String × Option String

namespace RunCommandTool

/-- RunCommandTool.Execute (internal/tools/tools.go): validate the command
string, run it through the shell, and report a failing exit as a
*successful* tool result carrying the captured output. -/
def Execute (shell : Shell) (args : Args) : Except String String :=
  match getStr args "command" with
  | none => Except.error "missing or invalid 'command' argument"
  | some command =>
    let r := shell command
    match r.2 with
    | some desc => Except.ok ("Command failed: " ++ desc ++ "\nOutput:\n" ++ r.1)
    | none => Except.ok r.1

end RunCommandTool

/-! ### The agent loop (internal/agent/agent.go) -/

/-- The fixed reply when no provider is configured. -/
def noBrainMsg : String :=
  "I have no brain! Please configure the LLM provider in your .env file so I can think."

/-- The prefix of the transport-failure reply
(`fmt.Sprintf("Error contacting the mainframe: %v", err)`). -/
def mainframeErrMsg : String := "Error contacting the mainframe: "

/-- The fixed loop-detection reply. -/
def loopMsg : String :=
  "I'm stuck in a loop! I keep trying to do the same thing over and over. Stopping to save your tokens."

/-- The fixed iteration-cap reply. -/
def maxStepsMsg : String :=
  "I ran out of moves! (Max steps reached). Try breaking down your request."

/-- The system prompt seeded into every new agent's history (agent.go `New`). -/
def clippySystemPrompt : String :=
  "You are Clippy, the helpful Microsoft Office assistant, but with a Vaporwave aesthetic. You are helpful, slightly annoying, and make corny coding jokes. You love the 80s/90s aesthetic, synthwave music, and neon colors. Use the paperclip emoji (📎) and eyeballs emoji (👀) throughout your responses, sometimes together and sometimes separately, but NEVER start your response with an emoji. Use other emojis sparingly. Keep your responses concise and fun. You have access to tools to: read files, write files, edit files, list directories, search files, create directories, delete files, move/rename files, append to files, read specific file lines, get current directory, and run shell commands. Use them to help users with coding tasks."

/-- The three `+=` statements accumulating a response's usage into the
running total, guarded by the source's nil check. -/
def addUsage (u : Usage) (v : Option Usage) : Usage :=
  match v with
  | none => u
  | some w =>
    ⟨u.PromptTokens + w.PromptTokens,
     u.CompletionTokens + w.CompletionTokens,
     u.TotalTokens + w.TotalTokens⟩

/-- The per-iteration tool dispatch (the `for _, tc := range resp.ToolCalls`
body): for each requested call, record its name, find the first registered
tool of that name, execute it (folding an execution error into the result
text), or synthesize a not-found text; return the recorded names and the
`tool`-role messages to append, both in call order. -/
def execToolCalls (tools : List Tool) : List ToolCall → List String × List Message
  | [] => ([], [])
  | tc :: rest =>
    let result :=
      match tools.find? (fun t => t.Definition.Name == tc.Name) with
      | some tool =>
        match tool.Execute tc.Arguments with
        | Except.ok r => r
        | Except.error e => "Error executing tool: " ++ e
      | none => "Tool not found: " ++ tc.Name
    let r := execToolCalls tools rest
    (tc.Name :: r.1,
     { Role := "tool", Content := result, ToolCallID := tc.ID } :: r.2)

/-- The bounded tool-execution loop of `Agent.GetResponse`, with the
mutable locals threaded explicitly: `fuel` counts the iterations left of
the 50-iteration cap, `i` is the source's loop index (for the `i > 0`
guard), `h` the history, `u` the running usage, `tu` the recorded tool
names and `ptc` the previous iteration's tool calls.  Besides the
`Response` and final history, the run's successful provider responses are
returned in order as an observable trace (the provider calls made). -/
def getResponseLoop (gen : Provider) (tools : List Tool) :
    Nat → Nat → List Message → Usage → List String → List ToolCall →
    Response × List Message × List Message
  | 0, _, h, u, tu, _ =>
    ({ Content := maxStepsMsg, Usage := some u, ToolsUsed := tu }, h, [])
  | fuel + 1, i, h, u, tu, ptc =>
    match gen h tools with
    | Except.error e =>
      ({ Content := mainframeErrMsg ++ e }, h, [])
    | Except.ok resp =>
      let u' := addUsage u resp.Usage
      let h' := h ++ [resp]
      if resp.ToolCalls = [] then
        ({ Content := resp.Content, Usage := some u', ToolsUsed := tu }, h', [resp])
      else if 0 < i ∧ resp.ToolCalls = ptc then
        ({ Content := loopMsg, Usage := some u', ToolsUsed := tu }, h', [resp])
      else
        let ex := execToolCalls tools resp.ToolCalls
        let r := getResponseLoop gen tools fuel (i + 1) (h' ++ ex.2) u' (tu ++ ex.1)
          resp.ToolCalls
        (r.1, r.2.1, resp :: r.2.2)

/-- `Agent.GetResponse`, with the final history and the provider-response
trace exposed alongside the `Response`. -/
def Agent.GetResponseFull (a : Agent) (input : String) :
    Response × List Message × List Message :=
  match a.LLM with
  | none => ({ Content := noBrainMsg }, a.History, [])
  | some gen =>
    getResponseLoop gen a.Tools 50 0
      (a.History ++ [{ Role := "user", Content := input }]) ⟨0, 0, 0⟩ [] []

/-- Agent.GetResponse (internal/agent/agent.go): history mutation is
modelled by returning the updated agent. -/
def Agent.GetResponse (a : Agent) (input : String) : Response × Agent :=
  let r := a.GetResponseFull input
  (r.1, { a with History := r.2.1 })

/-- New (internal/agent/agent.go): the registry contents are irrelevant to
the claims about construction, so the registered tools are a parameter. -/
def Agent.New (llmProvider : Option Provider) (availableTools : List Tool) : Agent :=
  { Name := "Clippy"
    LLM := llmProvider
    Tools := availableTools
    History := [{ Role := "system", Content := clippySystemPrompt }] }

/-- Agent.ClearHistory: truncate the history to its first element. -/
def Agent.ClearHistory (a : Agent) : Agent :=
  if 0 < a.History.length then { a with History := a.History.take 1 } else a

/-! ### The Anthropic adapter's outbound message conversion
(internal/llm/llm.go, `AnthropicProvider.Generate`) -/

/-- One content block of an outbound Anthropic-style message. -/
inductive AnthBlock where
  | textBlock : String → AnthBlock
  | toolUse : String → String → Args → AnthBlock
  | toolResult : String → String → AnthBlock
  deriving DecidableEq, Repr

/-- The content of an outbound message: either a plain string or a list of
typed blocks, mirroring the two shapes the adapter emits. -/
inductive AnthContent where
  | str : String → AnthContent
  | blocks : List AnthBlock → AnthContent
  deriving DecidableEq, Repr

/-- One outbound wire message of the Anthropic request payload. -/
structure AnthMessage where
  Role : String
  Content : AnthContent
  deriving DecidableEq, Repr

/-- The inner scan of `AnthropicProvider.Generate` that gathers the
maximal leading run of `tool`-role messages into `tool_result` blocks,
returning the blocks and the unconsumed remainder of the history. -/
def collectToolResults (l : List Message) : List AnthBlock × List Message :=
  ((l.takeWhile (fun m => m.Role == "tool")).map
      (fun m => AnthBlock.toolResult m.ToolCallID m.Content),
   l.dropWhile (fun m => m.Role == "tool"))

/-- The history-to-wire-payload conversion loop of
`AnthropicProvider.Generate`: system messages are lifted out, each maximal
run of consecutive `tool`-role messages is collapsed into a single
`user`-role message of `tool_result` blocks, assistant tool requests
become `text` plus `tool_use` blocks, and everything else is passed
through with plain string content.  The network call and response
decoding are outside this function. -/
def anthropicAPIMessages : List Message → List AnthMessage
  | [] => []
  | m :: rest =>
    if m.Role = "system" then anthropicAPIMessages rest
    else if m.Role = "tool" then
      let r := collectToolResults rest
      { Role := "user",
        Content := AnthContent.blocks
          (AnthBlock.toolResult m.ToolCallID m.Content :: r.1) }
        :: anthropicAPIMessages r.2
    else if m.ToolCalls ≠ [] then
      { Role := m.Role,
        Content := AnthContent.blocks
          ((if m.Content ≠ "" then [AnthBlock.textBlock m.Content] else []) ++
            m.ToolCalls.map (fun tc => AnthBlock.toolUse tc.ID tc.Name tc.Arguments)) }
        :: anthropicAPIMessages rest
    else
      { Role := m.Role, Content := AnthContent.str m.Content }
        :: anthropicAPIMessages rest
termination_by l => l.length
decreasing_by
  · simp only [List.length_cons]
    exact Nat.lt_succ_of_le (Nat.le_refl _)
  · simp only [collectToolResults, List.length_cons]
    exact Nat.lt_succ_of_le (List.IsSuffix.length_le (List.dropWhile_suffix _))
  · simp only [List.length_cons]
    exact Nat.lt_succ_of_le (Nat.le_refl _)
  · simp only [List.length_cons]
    exact Nat.lt_succ_of_le (Nat.le_refl _)

/-! ### Observables of a turn's provider-response trace -/

/-- The tool names requested by a trace of assistant responses, flattened
in call order: the value `tools_used` accumulates across a turn. -/
def flatNames : List Message → List String
  | [] => []
  | m :: rest => m.ToolCalls.map ToolCall.Name ++ flatNames rest

/-- Fold a trace of responses into a usage accumulator, exactly as the
loop's `addUsage` does call by call. -/
def foldUsage (u : Usage) : List Message → Usage
  | [] => u
  | m :: rest => foldUsage (addUsage u m.Usage) rest

/-- A response's prompt-token contribution (0 when usage is absent). -/
def usagePT (m : Message) : Int :=
  match m.Usage with
  | none => 0
  | some u => u.PromptTokens

/-- A response's completion-token contribution (0 when usage is absent). -/
def usageCT (m : Message) : Int :=
  match m.Usage with
  | none => 0
  | some u => u.CompletionTokens

/-- A response's total-token contribution (0 when usage is absent). -/
def usageTT (m : Message) : Int :=
  match m.Usage with
  | none => 0
  | some u => u.TotalTokens

/-! ### Concrete fixtures used by counterexamples and witnesses -/

/-- A provider that succeeds on the first call of a turn (returning one
tool call and usage 10/5/15) and fails on every later call. -/
def c1Gen : Provider := fun hist _ =>
  if hist.length ≤ 2 then
    Except.ok { Role := "assistant", Content := "calling",
                ToolCalls := [⟨"id1", "frobnicate", []⟩],
                Usage := some ⟨10, 5, 15⟩ }
  else Except.error "boom"

/-- A small concrete agent driven by `c1Gen`. -/
def c1Agent : Agent :=
  { Name := "Clippy", LLM := some c1Gen, Tools := [],
    History := [{ Role := "system", Content := "sys" }] }

/-- The repeated assistant response used by the C9 witness. -/
def c9Msg : Message :=
  { Role := "assistant", Content := "c",
    ToolCalls := [⟨"i1", "t1", []⟩], Usage := some ⟨1, 2, 4⟩ }

/-- A provider that repeats `c9Msg` forever. -/
def c9Gen : Provider := fun _ _ => Except.ok c9Msg

/-- A provider that always requests one tool call whose argument embeds
the current history length, so no two calls in a turn ever repeat. -/
def c2Gen : Provider := fun hist _ =>
  Except.ok { Role := "assistant", Content := "f",
              ToolCalls := [⟨"i", "t", [("n", GoValue.num hist.length)]⟩],
              Usage := some ⟨1, 1, 2⟩ }

/-- A small concrete agent driven by `c2Gen`. -/
def c2Agent : Agent :=
  { Name := "Clippy", LLM := some c2Gen, Tools := [],
    History := [{ Role := "system", Content := "sys" }] }

/-- A provider that answers at once with no tool calls and a usage whose
total (9) deliberately differs from prompt + completion (3 + 4). -/
def c4Gen : Provider := fun _ _ =>
  Except.ok { Role := "assistant", Content := "ok", Usage := some ⟨3, 4, 9⟩ }

/-- A small concrete agent driven by `c4Gen`. -/
def c4Agent : Agent :=
  { Name := "Clippy", LLM := some c4Gen, Tools := [],
    History := [{ Role := "system", Content := "sys" }] }

/-- A one-file filesystem for the edit-tool witness. -/
def c5Fs : FS := [("f.txt", "ababa")]

/-- Edit arguments whose target "ba" occurs twice in the file. -/
def c5Args : Args :=
  [("path", GoValue.str "f.txt"), ("target", GoValue.str "ba"),
   ("replacement", GoValue.str "zz")]

/-- Edit arguments whose target "xy" does not occur in the file. -/
def c5BadArgs : Args :=
  [("path", GoValue.str "f.txt"), ("target", GoValue.str "xy"),
   ("replacement", GoValue.str "zz")]

/-- A shell oracle whose every command fails with "exit status 1" after
printing "boom". -/
def c6Shell : Shell := fun _ => ("boom", some "exit status 1")

/-- A shell oracle whose every command succeeds silently; used to show the
validation error is independent of the shell. -/
def c6Shell2 : Shell := fun _ => ("", none)

/-- Arguments holding a command string. -/
def c6Args : Args := [("command", GoValue.str "ls /missing")]

/-- Arguments whose "command" value is not a string. -/
def c6BadArgs : Args := [("command", GoValue.num 3)]

/-- A two-message maximal run of tool results for the C7 witness. -/
def c7Run : List Message :=
  [{ Role := "tool", Content := "r1", ToolCallID := "c1" },
   { Role := "tool", Content := "r2", ToolCallID := "c2" }]

/-- A non-tool continuation after the run for the C7 witness. -/
def c7Rest : List Message := [{ Role := "assistant", Content := "done" }]

/-! ## Theorems

First, one unfolding lemma per branch of the agent loop; the claim
theorems below are proved from these. -/

theorem getResponseLoop_zero (gen : Provider) (tools : List Tool)
    (i : Nat) (h : List Message) (u : Usage) (tu : List String)
    (ptc : List ToolCall) :
    getResponseLoop gen tools 0 i h u tu ptc =
      ({ Content := maxStepsMsg, Usage := some u, ToolsUsed := tu }, h, []) := rfl

theorem getResponseLoop_err (gen : Provider) (tools : List Tool)
    (fuel i : Nat) (h : List Message) (u : Usage) (tu : List String)
    (ptc : List ToolCall) (e : String)
    (hg : gen h tools = Except.error e) :
    getResponseLoop gen tools (fuel + 1) i h u tu ptc =
      ({ Content := mainframeErrMsg ++ e }, h, []) := by
  simp only [getResponseLoop, hg]

theorem getResponseLoop_done (gen : Provider) (tools : List Tool)
    (fuel i : Nat) (h : List Message) (u : Usage) (tu : List String)
    (ptc : List ToolCall) (m : Message)
    (hg : gen h tools = Except.ok m) (hc : m.ToolCalls = []) :
    getResponseLoop gen tools (fuel + 1) i h u tu ptc =
      ({ Content := m.Content, Usage := some (addUsage u m.Usage), ToolsUsed := tu },
       h ++ [m], [m]) := by
  simp only [getResponseLoop, hg]
  simp [hc]

theorem getResponseLoop_detect (gen : Provider) (tools : List Tool)
    (fuel i : Nat) (h : List Message) (u : Usage) (tu : List String)
    (ptc : List ToolCall) (m : Message)
    (hg : gen h tools = Except.ok m) (hne : m.ToolCalls ≠ [])
    (hi : 0 < i) (heq : m.ToolCalls = ptc) :
    getResponseLoop gen tools (fuel + 1) i h u tu ptc =
      ({ Content := loopMsg, Usage := some (addUsage u m.Usage), ToolsUsed := tu },
       h ++ [m], [m]) := by
  have hne' : ptc ≠ [] := heq ▸ hne
  simp only [getResponseLoop, hg]
  simp [hne, hne', hi, heq]

theorem getResponseLoop_exec (gen : Provider) (tools : List Tool)
    (fuel i : Nat) (h : List Message) (u : Usage) (tu : List String)
    (ptc : List ToolCall) (m : Message)
    (hg : gen h tools = Except.ok m) (hne : m.ToolCalls ≠ [])
    (hnd : ¬(0 < i ∧ m.ToolCalls = ptc)) :
    getResponseLoop gen tools (fuel + 1) i h u tu ptc =
      ((getResponseLoop gen tools fuel (i + 1)
          ((h ++ [m]) ++ (execToolCalls tools m.ToolCalls).2)
          (addUsage u m.Usage) (tu ++ (execToolCalls tools m.ToolCalls).1)
          m.ToolCalls).1,
       (getResponseLoop gen tools fuel (i + 1)
          ((h ++ [m]) ++ (execToolCalls tools m.ToolCalls).2)
          (addUsage u m.Usage) (tu ++ (execToolCalls tools m.ToolCalls).1)
          m.ToolCalls).2.1,
       m :: (getResponseLoop gen tools fuel (i + 1)
          ((h ++ [m]) ++ (execToolCalls tools m.ToolCalls).2)
          (addUsage u m.Usage) (tu ++ (execToolCalls tools m.ToolCalls).1)
          m.ToolCalls).2.2) := by
  simp only [getResponseLoop, hg]
  simp [hne, hnd]

theorem execToolCalls_fst (tools : List Tool) :
    ∀ tcs : List ToolCall, (execToolCalls tools tcs).1 = tcs.map ToolCall.Name := by
  intro tcs
  induction tcs with
  | nil => rfl
  | cons tc rest ih => simp [execToolCalls, ih]

theorem execToolCalls_snd_length (tools : List Tool) :
    ∀ tcs : List ToolCall, (execToolCalls tools tcs).2.length = tcs.length := by
  intro tcs
  induction tcs with
  | nil => rfl
  | cons tc rest ih => simp [execToolCalls, ih]

/-- Every tool-role message appended in one iteration has role "tool". -/
theorem execToolCalls_roles (tools : List Tool) :
    ∀ tcs : List ToolCall, ∀ m ∈ (execToolCalls tools tcs).2, m.Role = "tool" := by
  intro tcs
  induction tcs with
  | nil => intro m hm; cases hm
  | cons tc rest ih =>
    intro m hm
    simp only [execToolCalls, List.mem_cons] at hm
    rcases hm with hm | hm
    · rw [hm]
    · exact ih m hm

/-- The loop only ever appends to the history it is given. -/
theorem getResponseLoop_history_extends (gen : Provider) (tools : List Tool) :
    ∀ (fuel i : Nat) (h : List Message) (u : Usage) (tu : List String)
      (ptc : List ToolCall),
      ∃ rest, (getResponseLoop gen tools fuel i h u tu ptc).2.1 = h ++ rest := by
  intro fuel
  induction fuel with
  | zero =>
    intro i h u tu ptc
    exact ⟨[], by simp [getResponseLoop_zero]⟩
  | succ n ih =>
    intro i h u tu ptc
    cases hg : gen h tools with
    | error e => exact ⟨[], by simp [getResponseLoop_err gen tools n i h u tu ptc e hg]⟩
    | ok m =>
      by_cases hc : m.ToolCalls = []
      · exact ⟨[m], by simp [getResponseLoop_done gen tools n i h u tu ptc m hg hc]⟩
      · by_cases hd : 0 < i ∧ m.ToolCalls = ptc
        · exact ⟨[m], by
            simp [getResponseLoop_detect gen tools n i h u tu ptc m hg hc hd.1 hd.2]⟩
        · obtain ⟨r, hr⟩ := ih (i + 1) ((h ++ [m]) ++ (execToolCalls tools m.ToolCalls).2)
            (addUsage u m.Usage) (tu ++ (execToolCalls tools m.ToolCalls).1) m.ToolCalls
          refine ⟨[m] ++ (execToolCalls tools m.ToolCalls).2 ++ r, ?_⟩
          rw [getResponseLoop_exec gen tools n i h u tu ptc m hg hc hd]
          simp only [hr]
          simp [List.append_assoc]

/-- C10: with no Provider configured, `GetResponse` returns the fixed
no-brain message with no usage and no tools-used, and the agent — its
History included — is returned exactly as it was: the user input is not
appended. -/
theorem getResponse_no_provider_frame (a : Agent) (input : String)
    (h : a.LLM = none) :
    a.GetResponse input = ({ Content := noBrainMsg }, a) := by
  obtain ⟨n, l, t, hist⟩ := a
  subst h
  rfl

/-- Witness for C10 at a concrete uncommissioned agent. -/
theorem getResponse_no_provider_frame_witness :
    (Agent.New none []).GetResponse "hello" =
      ({ Content := noBrainMsg }, Agent.New none []) :=
  getResponse_no_provider_frame (Agent.New none []) "hello" rfl

/-- C8: a freshly constructed agent's History is exactly the one seeded
system message; `ClearHistory` on any non-empty History truncates it to
its first element (length 1); and `GetResponse` preserves the first
element, so the seeded system message always stays in front. -/
theorem history_system_seed_and_clear (p : Option Provider) (ts : List Tool)
    (a : Agent) (input : String) (h : a.History ≠ []) :
    (Agent.New p ts).History =
        [{ Role := "system", Content := clippySystemPrompt }] ∧
    a.ClearHistory.History = a.History.take 1 ∧
    a.ClearHistory.History.length = 1 ∧
    (a.GetResponse input).2.History.head? = a.History.head? := by
  obtain ⟨m0, t0, ht⟩ : ∃ m0 t0, a.History = m0 :: t0 := by
    cases hh : a.History with
    | nil => exact absurd hh h
    | cons x xs => exact ⟨x, xs, rfl⟩
  refine ⟨rfl, ?_, ?_, ?_⟩
  · simp [Agent.ClearHistory, ht]
  · simp [Agent.ClearHistory, ht]
  · cases hl : a.LLM with
    | none =>
      simp [Agent.GetResponse, Agent.GetResponseFull, hl]
    | some gen =>
      obtain ⟨rest, hr⟩ := getResponseLoop_history_extends gen a.Tools 50 0
        (a.History ++ [{ Role := "user", Content := input }]) ⟨0, 0, 0⟩ [] []
      simp only [Agent.GetResponse, Agent.GetResponseFull, hl]
      rw [hr, ht]
      simp

/-- Witness for C8 at a concrete agent with a non-empty history. -/
theorem history_system_seed_and_clear_witness :
    (Agent.New none []).History =
        [{ Role := "system", Content := clippySystemPrompt }] ∧
    (Agent.New none []).ClearHistory.History = (Agent.New none []).History.take 1 ∧
    (Agent.New none []).ClearHistory.History.length = 1 ∧
    ((Agent.New none []).GetResponse "hi").2.History.head? =
      (Agent.New none []).History.head? :=
  history_system_seed_and_clear none [] (Agent.New none []) "hi" (by
    simp [Agent.New])

/-! ### C1: behaviour on a provider failure -/

/-- Counterexample to C1 as stated: on this turn the provider completes
one call (usage 10/5/15, one tool call) and fails on the second; the code
returns the failure content but with `Usage = none` — not the accumulated
usage — and the History carries the first iteration's assistant and tool
messages on top of the user message, not just the user message. -/
theorem c1_failure_usage_counterexample :
    (c1Agent.GetResponse "hi").1.Content = mainframeErrMsg ++ "boom" ∧
    (c1Agent.GetResponse "hi").1.Usage = none ∧
    (c1Agent.GetResponse "hi").1.Usage ≠ some ⟨10, 5, 15⟩ ∧
    (c1Agent.GetResponse "hi").2.History ≠
      c1Agent.History ++ [{ Role := "user", Content := "hi" }] ∧
    (c1Agent.GetResponse "hi").2.History.length = 4 := by
  refine ⟨rfl, rfl, by decide, by decide, rfl⟩

/-- C1 as amended: when the provider call of any iteration fails, the turn
aborts immediately with a Response whose content is the mainframe-error
text carrying the failure, whose usage and tools-used are absent (nil) —
not the accumulated values — and the History is exactly what had
accumulated before the failing call (pre-turn History, the user message,
and the messages appended by earlier completed iterations); the failed
call appends nothing.  The second conjunct instantiates this at the first
iteration of `GetResponse`. -/
theorem c1_failure_aborts_amended (gen : Provider) (tools : List Tool)
    (fuel i : Nat) (h : List Message) (u : Usage) (tu : List String)
    (ptc : List ToolCall) (e : String)
    (hg : gen h tools = Except.error e) :
    getResponseLoop gen tools (fuel + 1) i h u tu ptc =
      ({ Content := mainframeErrMsg ++ e, Usage := none, ToolsUsed := [] }, h, []) ∧
    ∀ a : Agent, ∀ input : String,
      a.LLM = some gen → a.Tools = tools →
      a.History ++ [{ Role := "user", Content := input }] = h →
      a.GetResponse input =
        ({ Content := mainframeErrMsg ++ e }, { a with History := h }) := by
  constructor
  · exact getResponseLoop_err gen tools fuel i h u tu ptc e hg
  · intro a input hllm htools hinit
    simp only [Agent.GetResponse, Agent.GetResponseFull, hllm, htools, hinit]
    rw [getResponseLoop_err gen tools 49 0 h ⟨0, 0, 0⟩ [] [] e hg]

/-- Witness for the amended C1: a provider failing at once aborts the
first iteration with the bare error response and an untouched history. -/
theorem c1_failure_aborts_amended_witness :
    getResponseLoop (fun _ _ => Except.error "down") [] 50 0
        [{ Role := "system", Content := "sys" },
         { Role := "user", Content := "q" }] ⟨0, 0, 0⟩ [] [] =
      ({ Content := mainframeErrMsg ++ "down", Usage := none, ToolsUsed := [] },
       [{ Role := "system", Content := "sys" },
        { Role := "user", Content := "q" }], []) ∧
    (Agent.mk "Clippy" (some (fun _ _ => Except.error "down")) []
        [{ Role := "system", Content := "sys" }]).GetResponse "q" =
      ({ Content := mainframeErrMsg ++ "down" },
       { Agent.mk "Clippy" (some (fun _ _ => Except.error "down")) []
          [{ Role := "system", Content := "sys" }] with
          History := [{ Role := "system", Content := "sys" },
                      { Role := "user", Content := "q" }] }) := by
  have h := c1_failure_aborts_amended (fun _ _ => Except.error "down") [] 49 0
    [{ Role := "system", Content := "sys" }, { Role := "user", Content := "q" }]
    ⟨0, 0, 0⟩ [] [] "down" rfl
  exact ⟨h.1, h.2 _ "q" rfl rfl rfl⟩

/-! ### C9: loop detection fires before tool dispatch -/

/-- C9: at any iteration past the first whose requested ToolCalls equal
the previous iteration's, the loop stops at once: the only History
mutation is the assistant message itself (no tool-role messages), the
recorded tool names are unchanged, and no further provider call happens
(the trace ends with this response). -/
theorem loop_detection_skips_dispatch (gen : Provider) (tools : List Tool)
    (fuel i : Nat) (h : List Message) (u : Usage) (tu : List String)
    (ptc : List ToolCall) (m : Message)
    (hg : gen h tools = Except.ok m) (hi : 0 < i)
    (heq : m.ToolCalls = ptc) (hne : m.ToolCalls ≠ []) :
    getResponseLoop gen tools (fuel + 1) i h u tu ptc =
      ({ Content := loopMsg, Usage := some (addUsage u m.Usage), ToolsUsed := tu },
       h ++ [m], [m]) :=
  getResponseLoop_detect gen tools fuel i h u tu ptc m hg hne hi heq

/-- Witness for C9 at a concrete repeated tool call. -/
theorem loop_detection_skips_dispatch_witness :
    getResponseLoop c9Gen [] 49 1
        [{ Role := "system", Content := "sys" }] ⟨1, 2, 4⟩ ["t1"]
        [⟨"i1", "t1", []⟩] =
      ({ Content := loopMsg, Usage := some (addUsage ⟨1, 2, 4⟩ c9Msg.Usage),
         ToolsUsed := ["t1"] },
       [{ Role := "system", Content := "sys" }] ++ [c9Msg], [c9Msg]) :=
  loop_detection_skips_dispatch c9Gen [] 48 1
    [{ Role := "system", Content := "sys" }] ⟨1, 2, 4⟩ ["t1"]
    [⟨"i1", "t1", []⟩] c9Msg rfl (by decide) rfl (by decide)

/-! ### C3: consecutive identical ToolCalls stop the turn -/

/-- C3: whenever one iteration requests a non-empty batch of ToolCalls
(and does not itself fire detection) and the next provider response
requests a structurally identical batch, the loop stops right there with
the fixed stuck-in-a-loop message, keeping the usage accumulated over both
calls and the tool names recorded for the first batch only: the repeated
batch is not executed again — no further tool messages, no further
provider calls. -/
theorem consecutive_identical_toolcalls_stop (gen : Provider) (tools : List Tool)
    (fuel i : Nat) (h : List Message) (u : Usage) (tu : List String)
    (ptc : List ToolCall) (m1 m2 : Message)
    (h1 : gen h tools = Except.ok m1)
    (hne : m1.ToolCalls ≠ [])
    (hfirst : ¬(0 < i ∧ m1.ToolCalls = ptc))
    (h2 : gen ((h ++ [m1]) ++ (execToolCalls tools m1.ToolCalls).2) tools =
      Except.ok m2)
    (heq : m2.ToolCalls = m1.ToolCalls) :
    getResponseLoop gen tools (fuel + 2) i h u tu ptc =
      ({ Content := loopMsg,
         Usage := some (addUsage (addUsage u m1.Usage) m2.Usage),
         ToolsUsed := tu ++ m1.ToolCalls.map ToolCall.Name },
       ((h ++ [m1]) ++ (execToolCalls tools m1.ToolCalls).2) ++ [m2],
       [m1, m2]) := by
  have hne2 : m2.ToolCalls ≠ [] := by rw [heq]; exact hne
  have hstep : fuel + 2 = (fuel + 1) + 1 := rfl
  rw [hstep]
  rw [getResponseLoop_exec gen tools (fuel + 1) i h u tu ptc m1 h1 hne hfirst]
  rw [getResponseLoop_detect gen tools fuel (i + 1)
    ((h ++ [m1]) ++ (execToolCalls tools m1.ToolCalls).2)
    (addUsage u m1.Usage) (tu ++ (execToolCalls tools m1.ToolCalls).1)
    m1.ToolCalls m2 h2 hne2 (Nat.succ_pos i) heq]
  rw [execToolCalls_fst]

/-- Witness for C3: a provider repeating the same single tool call twice
from the start of a turn. -/
theorem consecutive_identical_toolcalls_stop_witness :
    getResponseLoop c9Gen [] 50 0 [{ Role := "system", Content := "sys" }]
        ⟨0, 0, 0⟩ [] [] =
      ({ Content := loopMsg,
         Usage := some (addUsage (addUsage ⟨0, 0, 0⟩ c9Msg.Usage) c9Msg.Usage),
         ToolsUsed := [] ++ c9Msg.ToolCalls.map ToolCall.Name },
       (([{ Role := "system", Content := "sys" }] ++ [c9Msg]) ++
          (execToolCalls [] c9Msg.ToolCalls).2) ++ [c9Msg],
       [c9Msg, c9Msg]) :=
  consecutive_identical_toolcalls_stop c9Gen [] 48 0
    [{ Role := "system", Content := "sys" }] ⟨0, 0, 0⟩ [] [] c9Msg c9Msg
    rfl (by decide) (by simp) rfl rfl

/-! ### C2: budget exhaustion at the 50-iteration cap -/

/-- Against a provider that always answers with a fresh, never-repeating,
non-empty batch of ToolCalls, the loop consumes all its fuel: it makes one
provider call per remaining iteration and then stops with the fixed
exhaustion message, the usage folded over every response and the tool
names of every batch.  The last hypothesis is the invariant that the
previous batch, if any, came from a strictly shorter history. -/
theorem loop_exhausts_budget (gen : Provider) (tools : List Tool)
    (H : ∀ hist, ∃ m, gen hist tools = Except.ok m ∧ m.ToolCalls ≠ [])
    (H2 : ∀ h0 m0 m1, gen h0 tools = Except.ok m0 →
      gen ((h0 ++ [m0]) ++ (execToolCalls tools m0.ToolCalls).2) tools =
        Except.ok m1 →
      m1.ToolCalls ≠ m0.ToolCalls) :
    ∀ (fuel i : Nat) (h : List Message) (u : Usage) (tu : List String)
      (ptc : List ToolCall),
      (0 < i → ∃ h0 m0, gen h0 tools = Except.ok m0 ∧ m0.ToolCalls = ptc ∧
        h = (h0 ++ [m0]) ++ (execToolCalls tools m0.ToolCalls).2) →
      ∃ tr hfin,
        getResponseLoop gen tools fuel i h u tu ptc =
          ({ Content := maxStepsMsg, Usage := some (foldUsage u tr),
             ToolsUsed := tu ++ flatNames tr }, hfin, tr) ∧
        tr.length = fuel := by
  intro fuel
  induction fuel with
  | zero =>
    intro i h u tu ptc _
    refine ⟨[], h, ?_, rfl⟩
    simp [getResponseLoop_zero, foldUsage, flatNames]
  | succ n ih =>
    intro i h u tu ptc hinv
    obtain ⟨m, hg, hne⟩ := H h
    have hnd : ¬(0 < i ∧ m.ToolCalls = ptc) := by
      rintro ⟨hi, hmp⟩
      obtain ⟨h0, m0, hg0, hptc, hh⟩ := hinv hi
      rw [hh] at hg
      exact H2 h0 m0 m hg0 hg (hmp.trans hptc.symm)
    obtain ⟨tr, hfin, heq, hlen⟩ := ih (i + 1)
      ((h ++ [m]) ++ (execToolCalls tools m.ToolCalls).2)
      (addUsage u m.Usage) (tu ++ (execToolCalls tools m.ToolCalls).1)
      m.ToolCalls
      (fun _ => ⟨h, m, hg, rfl, rfl⟩)
    refine ⟨m :: tr, hfin, ?_, by simp [hlen]⟩
    rw [getResponseLoop_exec gen tools n i h u tu ptc m hg hne hnd]
    rw [heq]
    simp [foldUsage, flatNames, execToolCalls_fst, List.append_assoc]

/-- C2: for every agent whose provider never answers without tool calls
and on each call requests a batch of ToolCalls structurally different from
the previous call's batch, `GetResponse` makes exactly 50 provider calls
and then stops with the fixed ran-out-of-moves message, returning the
usage accumulated over all 50 responses and the tool names of all
batches. -/
theorem budget_exhaustion_fifty_calls (a : Agent) (gen : Provider)
    (input : String) (hllm : a.LLM = some gen)
    (H : ∀ hist, ∃ m, gen hist a.Tools = Except.ok m ∧ m.ToolCalls ≠ [])
    (H2 : ∀ h0 m0 m1, gen h0 a.Tools = Except.ok m0 →
      gen ((h0 ++ [m0]) ++ (execToolCalls a.Tools m0.ToolCalls).2) a.Tools =
        Except.ok m1 →
      m1.ToolCalls ≠ m0.ToolCalls) :
    ∃ tr hfin,
      a.GetResponseFull input =
        ({ Content := maxStepsMsg, Usage := some (foldUsage ⟨0, 0, 0⟩ tr),
           ToolsUsed := flatNames tr }, hfin, tr) ∧
      tr.length = 50 := by
  obtain ⟨tr, hfin, heq, hlen⟩ := loop_exhausts_budget gen a.Tools H H2 50 0
    (a.History ++ [{ Role := "user", Content := input }]) ⟨0, 0, 0⟩ [] []
    (by intro hi; exact absurd hi (by simp))
  refine ⟨tr, hfin, ?_, hlen⟩
  simp only [Agent.GetResponseFull, hllm]
  rw [heq]
  simp

/-- Witness for C2: the incrementing-argument provider drives a concrete
agent through exactly 50 calls into the exhaustion message. -/
theorem budget_exhaustion_fifty_calls_witness :
    ∃ tr hfin,
      c2Agent.GetResponseFull "go" =
        ({ Content := maxStepsMsg, Usage := some (foldUsage ⟨0, 0, 0⟩ tr),
           ToolsUsed := flatNames tr }, hfin, tr) ∧
      tr.length = 50 :=
  budget_exhaustion_fifty_calls c2Agent c2Gen "go" rfl
    (fun _ => ⟨_, rfl, by simp⟩)
    (by
      intro h0 m0 m1 e0 e1 heq
      simp only [c2Gen] at e0 e1
      injection e0 with e0
      injection e1 with e1
      rw [← e0, ← e1] at heq
      simp only [Message.mk.injEq, ToolCall.mk.injEq, List.cons.injEq,
        Prod.mk.injEq, GoValue.num.injEq, and_true, true_and] at heq
      injection heq with hhead htail
      injection hhead with hfst hsnd
      injection hsnd with hn
      have hlen : ((h0 ++ [m0]) ++
          (execToolCalls c2Agent.Tools m0.ToolCalls).2).length =
          h0.length + 1 +
            (execToolCalls c2Agent.Tools m0.ToolCalls).2.length := by
        simp
        omega
      rw [hlen] at hn
      omega)

/-! ### C4: usage accumulation is component-wise addition -/

/-- Whenever the provider never fails, the loop's returned usage is the
accumulator plus the component-wise sums over the trace of responses:
prompt, completion and total tokens are each summed independently. -/
theorem loop_usage_componentwise (gen : Provider) (tools : List Tool)
    (Htotal : ∀ hist, ∃ m, gen hist tools = Except.ok m) :
    ∀ (fuel i : Nat) (h : List Message) (u : Usage) (tu : List String)
      (ptc : List ToolCall),
      ∃ r hfin tr,
        getResponseLoop gen tools fuel i h u tu ptc = (r, hfin, tr) ∧
        r.Usage = some ⟨u.PromptTokens + (tr.map usagePT).sum,
                        u.CompletionTokens + (tr.map usageCT).sum,
                        u.TotalTokens + (tr.map usageTT).sum⟩ := by
  intro fuel
  induction fuel with
  | zero =>
    intro i h u tu ptc
    exact ⟨_, h, [], getResponseLoop_zero gen tools i h u tu ptc, by simp⟩
  | succ n ih =>
    intro i h u tu ptc
    obtain ⟨m, hg⟩ := Htotal h
    by_cases hc : m.ToolCalls = []
    · refine ⟨_, h ++ [m], [m],
        getResponseLoop_done gen tools n i h u tu ptc m hg hc, ?_⟩
      cases hu : m.Usage <;>
        simp [addUsage, usagePT, usageCT, usageTT, hu]
    · by_cases hd : 0 < i ∧ m.ToolCalls = ptc
      · refine ⟨_, h ++ [m], [m],
          getResponseLoop_detect gen tools n i h u tu ptc m hg hc hd.1 hd.2, ?_⟩
        cases hu : m.Usage <;>
          simp [addUsage, usagePT, usageCT, usageTT, hu]
      · obtain ⟨r, hfin, tr, heq, hu⟩ := ih (i + 1)
          ((h ++ [m]) ++ (execToolCalls tools m.ToolCalls).2)
          (addUsage u m.Usage) (tu ++ (execToolCalls tools m.ToolCalls).1)
          m.ToolCalls
        refine ⟨r, hfin, m :: tr, ?_, ?_⟩
        · rw [getResponseLoop_exec gen tools n i h u tu ptc m hg hc hd, heq]
        · rw [hu]
          cases hum : m.Usage <;>
            simp [addUsage, usagePT, usageCT, usageTT, hum, Int.add_assoc]

/-- C4: for every turn whose provider calls all return responses,
`GetResponse`'s usage is the component-wise sum over those responses'
usages — prompt, completion and total tokens summed independently, a
response without usage contributing nothing, the total never re-derived
from prompt plus completion. -/
theorem usage_accumulation_additive (a : Agent) (gen : Provider)
    (input : String) (hllm : a.LLM = some gen)
    (Htotal : ∀ hist, ∃ m, gen hist a.Tools = Except.ok m) :
    ∃ r hfin tr,
      a.GetResponseFull input = (r, hfin, tr) ∧
      r.Usage = some ⟨(tr.map usagePT).sum, (tr.map usageCT).sum,
                      (tr.map usageTT).sum⟩ := by
  obtain ⟨r, hfin, tr, heq, hu⟩ := loop_usage_componentwise gen a.Tools Htotal
    50 0 (a.History ++ [{ Role := "user", Content := input }]) ⟨0, 0, 0⟩ [] []
  refine ⟨r, hfin, tr, ?_, ?_⟩
  · simp only [Agent.GetResponseFull, hllm]
    exact heq
  · rw [hu]
    simp

/-- Witness for C4: one provider call with usage 3/4/9; the returned total
is 9, the provider's reported total, not 3 + 4. -/
theorem usage_accumulation_additive_witness :
    ∃ r hfin tr,
      c4Agent.GetResponseFull "hello" = (r, hfin, tr) ∧
      r.Usage = some ⟨(tr.map usagePT).sum, (tr.map usageCT).sum,
                      (tr.map usageTT).sum⟩ :=
  usage_accumulation_additive c4Agent c4Gen "hello" rfl
    (fun _ => ⟨_, rfl⟩)

/-! ### C5: edit-file replaces exactly the first occurrence -/

theorem leadsWith_ex : ∀ pat s : List Char, leadsWith pat s = true →
    ∃ t, s = pat ++ t := by
  intro pat
  induction pat with
  | nil => intro s _; exact ⟨s, rfl⟩
  | cons p ps ih =>
    intro s hl
    cases s with
    | nil => simp [leadsWith] at hl
    | cons c cs =>
      simp only [leadsWith, Bool.and_eq_true, decide_eq_true_eq] at hl
      obtain ⟨t, ht⟩ := ih cs hl.2
      refine ⟨t, ?_⟩
      rw [← hl.1, ht]
      rfl

/-- `replaceFirst` rewrites the leftmost occurrence: the input splits as
`pre ++ pat ++ suf` with no occurrence of `pat` starting inside `pre`, and
the output is `pre ++ rep ++ suf` — the suffix, and with it every later
occurrence, survives verbatim. -/
theorem replaceFirst_found : ∀ s pat rep : List Char, containsSub s pat = true →
    ∃ pre suf, s = pre ++ pat ++ suf ∧
      (∀ k, k < pre.length → leadsWith pat (s.drop k) = false) ∧
      replaceFirst s pat rep = pre ++ rep ++ suf := by
  intro s
  induction s with
  | nil =>
    intro pat rep hc
    simp only [containsSub, List.isEmpty_iff] at hc
    subst hc
    refine ⟨[], [], rfl, ?_, ?_⟩
    · intro k hk
      exact absurd hk (Nat.not_lt_zero k)
    · simp [replaceFirst, leadsWith]
  | cons c rest ih =>
    intro pat rep hc
    by_cases hlw : leadsWith pat (c :: rest) = true
    · obtain ⟨t, ht⟩ := leadsWith_ex pat (c :: rest) hlw
      refine ⟨[], t, by simpa using ht, ?_, ?_⟩
      · intro k hk
        exact absurd hk (Nat.not_lt_zero k)
      · simp only [replaceFirst, if_pos hlw]
        rw [ht, List.drop_left]
        simp
    · have hc2 : containsSub rest pat = true := by
        simp only [containsSub, Bool.or_eq_true] at hc
        rcases hc with h | h
        · exact absurd h hlw
        · exact h
      obtain ⟨pre, suf, hs, hmin, hrep⟩ := ih pat rep hc2
      refine ⟨c :: pre, suf, by rw [hs]; rfl, ?_, ?_⟩
      · intro k hk
        cases k with
        | zero =>
          simp only [List.drop_zero]
          revert hlw
          cases leadsWith pat (c :: rest) <;> simp
        | succ k2 =>
          have hdrop : (c :: rest).drop (k2 + 1) = rest.drop k2 := rfl
          rw [hdrop]
          exact hmin k2 (by simpa using hk)
      · simp only [replaceFirst, if_neg hlw]
        rw [hrep]
        rfl

/-- C5: with valid arguments and an existing file, the edit tool fails
hard and leaves the filesystem byte-identical when the target is absent;
when the target occurs, it rewrites exactly the leftmost occurrence
(splitting the contents as `pre ++ target ++ suf` with no earlier match)
and writes back `pre ++ replacement ++ suf`, so every later occurrence —
living in `suf` — is intact. -/
theorem edit_file_first_occurrence (fs : FS) (args : Args)
    (path target replacement text : String)
    (hp : getStr args "path" = some path)
    (ht : getStr args "target" = some target)
    (hr : getStr args "replacement" = some replacement)
    (hread : fsRead fs path = some text) :
    (goContains text target = false →
      EditFileTool.Execute args fs =
        (Except.error "target string not found in file", fs)) ∧
    (goContains text target = true →
      ∃ pre suf : List Char,
        text.data = pre ++ target.data ++ suf ∧
        (∀ k, k < pre.length → leadsWith target.data (text.data.drop k) = false) ∧
        EditFileTool.Execute args fs =
          (Except.ok ("Successfully edited " ++ path),
           fsWrite fs path ⟨pre ++ replacement.data ++ suf⟩)) := by
  constructor
  · intro hnc
    simp [EditFileTool.Execute, hp, ht, hr, hread, hnc]
  · intro hc
    obtain ⟨pre, suf, hs, hmin, hrep⟩ :=
      replaceFirst_found text.data target.data replacement.data hc
    refine ⟨pre, suf, hs, hmin, ?_⟩
    have hgr : goReplaceFirst text target replacement =
        ⟨pre ++ replacement.data ++ suf⟩ := congrArg String.mk hrep
    simp [EditFileTool.Execute, hp, ht, hr, hread, hc, hgr]

/-- Witness for C5: in "ababa" with target "ba", only the occurrence at
index 1 is replaced ("azzba"); with target "xy" the call fails and the
filesystem is returned untouched. -/
theorem edit_file_first_occurrence_witness :
    (∃ pre suf : List Char,
      ("ababa" : String).data = pre ++ ("ba" : String).data ++ suf ∧
      (∀ k, k < pre.length →
        leadsWith ("ba" : String).data (("ababa" : String).data.drop k) = false) ∧
      EditFileTool.Execute c5Args c5Fs =
        (Except.ok ("Successfully edited " ++ "f.txt"),
         fsWrite c5Fs "f.txt" ⟨pre ++ ("zz" : String).data ++ suf⟩)) ∧
    EditFileTool.Execute c5BadArgs c5Fs =
      (Except.error "target string not found in file", c5Fs) :=
  ⟨(edit_file_first_occurrence c5Fs c5Args "f.txt" "ba" "zz" "ababa"
      rfl rfl rfl rfl).2 rfl,
   (edit_file_first_occurrence c5Fs c5BadArgs "f.txt" "xy" "zz" "ababa"
      rfl rfl rfl rfl).1 rfl⟩

/-! ### C6: shell-command failures are successful tool results,
argument-validation failures are hard errors with no I/O -/

/-- C6: a command whose process exits with failure yields a *successful*
tool result packaging the failure description and the captured combined
output; an argument map without a string-valued "command" yields the hard
validation error, and the outcome is then identical under any two shells —
the tool performs no I/O before validation succeeds. -/
theorem run_command_failure_and_validation (shell shell2 : Shell) (args : Args) :
    (∀ cmd out desc, getStr args "command" = some cmd →
      shell cmd = (out, some desc) →
      RunCommandTool.Execute shell args =
        Except.ok ("Command failed: " ++ desc ++ "\nOutput:\n" ++ out)) ∧
    (getStr args "command" = none →
      RunCommandTool.Execute shell args =
          Except.error "missing or invalid 'command' argument" ∧
      RunCommandTool.Execute shell args = RunCommandTool.Execute shell2 args) := by
  constructor
  · intro cmd out desc hcmd hsh
    simp [RunCommandTool.Execute, hcmd, hsh]
  · intro hnone
    constructor
    · simp [RunCommandTool.Execute, hnone]
    · simp [RunCommandTool.Execute, hnone]

/-- Witness for C6: a failing `ls /missing` comes back as a successful
result with the output and exit description; a numeric "command" value is
rejected identically under two different shells. -/
theorem run_command_failure_and_validation_witness :
    RunCommandTool.Execute c6Shell c6Args =
      Except.ok ("Command failed: " ++ "exit status 1" ++ "\nOutput:\n" ++ "boom") ∧
    RunCommandTool.Execute c6Shell c6BadArgs =
      Except.error "missing or invalid 'command' argument" ∧
    RunCommandTool.Execute c6Shell c6BadArgs =
      RunCommandTool.Execute c6Shell2 c6BadArgs :=
  ⟨(run_command_failure_and_validation c6Shell c6Shell2 c6Args).1
      "ls /missing" "boom" "exit status 1" rfl rfl,
   (run_command_failure_and_validation c6Shell c6Shell2 c6BadArgs).2 rfl⟩

/-! ### C7: the Anthropic adapter merges consecutive tool results -/

/-- The inner scan consumes exactly a maximal run: a block per tool-role
message of the run, in order, and the remainder is returned untouched. -/
theorem collectToolResults_append (run rest : List Message)
    (hrun : ∀ m ∈ run, m.Role = "tool")
    (hmax : ∀ m2, rest.head? = some m2 → m2.Role ≠ "tool") :
    collectToolResults (run ++ rest) =
      (run.map (fun m => AnthBlock.toolResult m.ToolCallID m.Content), rest) := by
  induction run with
  | nil =>
    cases rest with
    | nil => rfl
    | cons m2 r2 =>
      have hm2 : m2.Role ≠ "tool" := hmax m2 rfl
      simp [collectToolResults, List.takeWhile_cons, List.dropWhile_cons, hm2]
  | cons m run2 ih =>
    have hm : m.Role = "tool" := hrun m (List.mem_cons_self m run2)
    have ihh := ih (fun x hx => hrun x (List.mem_cons_of_mem m hx))
    simp only [collectToolResults, List.cons_append, List.takeWhile_cons,
      List.dropWhile_cons, hm] at ihh ⊢
    simp only [collectToolResults, Prod.mk.injEq] at ihh
    simp [ihh.1, ihh.2]

/-- C7: for every history containing a maximal run of consecutive
tool-role messages, the Anthropic adapter's outbound conversion collapses
the whole run into exactly one user-role wire message holding one
tool_result block per result — keyed by that result's ToolCallID, in
order — and then continues with the rest of the history; the abstract
history itself is only read, never restructured. -/
theorem anthropic_merges_consecutive_tool_results (run rest : List Message)
    (hne : run ≠ []) (hrun : ∀ m ∈ run, m.Role = "tool")
    (hmax : ∀ m2, rest.head? = some m2 → m2.Role ≠ "tool") :
    anthropicAPIMessages (run ++ rest) =
      { Role := "user",
        Content := AnthContent.blocks
          (run.map (fun m => AnthBlock.toolResult m.ToolCallID m.Content)) }
        :: anthropicAPIMessages rest := by
  cases run with
  | nil => exact absurd rfl hne
  | cons m run2 =>
    have hm : m.Role = "tool" := hrun m (List.mem_cons_self m run2)
    have hcol := collectToolResults_append run2 rest
      (fun x hx => hrun x (List.mem_cons_of_mem m hx)) hmax
    rw [List.cons_append, anthropicAPIMessages]
    rw [if_neg (by rw [hm]; decide), if_pos hm]
    rw [hcol]
    simp

/-- Witness for C7: two consecutive tool results followed by an assistant
message collapse into one user message with two tool_result blocks. -/
theorem anthropic_merges_consecutive_tool_results_witness :
    anthropicAPIMessages (c7Run ++ c7Rest) =
      { Role := "user",
        Content := AnthContent.blocks
          (c7Run.map (fun m => AnthBlock.toolResult m.ToolCallID m.Content)) }
        :: anthropicAPIMessages c7Rest :=
  anthropic_merges_consecutive_tool_results c7Run c7Rest (by decide)
    (by decide) (by decide)

end Clippy
